import Mathlib

/-!
Verification of `.github/scripts/generate_events.py` ("Since Sean Left" event
generator) against its natural-language specification.

The script is embedded shallowly:

* Python strings are Lean `String`s (with `List Char` workers); `str.strip`,
  `str.upper`, `str.replace` and the two `re.sub` calls are modelled
  character-exactly for the ASCII inputs the script handles.
* `json.loads` results are modelled by the inductive `JValue`; the parser
  itself is an external library and is passed in as an oracle
  `String → Option JValue` (`none` models `json.JSONDecodeError`).
  JSON numbers are modelled as integers; no claim depends on float values.
* Fallible Python code returns `Except PyErr _`; `sys.exit(1)` and normal
  completion are constructors of explicit outcome types.
* Network and file I/O are inputs of the model: each feed is an
  `Except PyErr (List FeedEntry)`, the index read/write and the Gemini call
  are `Except PyErr _` fields of `Env`.
-/

/-- Python exception classes that the script can raise or catch.
`jsonDecodeError` is the one class `generate_events` catches. -/
inductive PyErr where
  | typeError
  | attributeError
  | ioError
  | apiError
deriving Repr, DecidableEq

/-- Values produced by `json.loads`: null, booleans, numbers (modelled as
integers), strings, arrays and objects. -/
inductive JValue where
  | null
  | bool (b : Bool)
  | num (n : Int)
  | str (s : String)
  | arr (elems : List JValue)
  | obj (fields : List (String × JValue))

/-- The single-quote character, written by code point to keep source text
free of quote literals. -/
def sqChar : Char := Char.ofNat 39

/-- The backslash character. -/
def bsChar : Char := Char.ofNat 92

/-- Single-quote as a one-character string. -/
def sqS : String := String.singleton sqChar

/-- The two-character replacement `\'` used by `str.replace("'", "\\'")`. -/
def bsqS : String := String.mk [bsChar, sqChar]

/-- Whitespace in the sense of Python `str.strip()` (ASCII range). -/
def pyIsSpace (c : Char) : Bool :=
  c = ' ' || c = '\t' || c = '\n' || c = '\r' || c = '\x0b' || c = '\x0c'

/-- Python `str.strip()` on the character list. -/
def pyStripData (cs : List Char) : List Char :=
  ((cs.dropWhile pyIsSpace).reverse.dropWhile pyIsSpace).reverse

/-- Python `str.strip()`. -/
def pyStrip (s : String) : String := String.mk (pyStripData s.data)

/-- ASCII uppercase of one character, as Python `str.upper` acts on the
ASCII inputs relevant here. -/
def asciiUpper (c : Char) : Char :=
  if c ≥ 'a' && c ≤ 'z' then Char.ofNat (c.toNat - 32) else c

/-- Python `str.upper()` (ASCII fragment). -/
def pyUpper (s : String) : String := String.mk (s.data.map asciiUpper)

/-- Worker for Python `str.replace(pat, rep)`: replace every non-overlapping
occurrence of `pat`, scanning left to right.  The fuel argument is the
length of the scanned list, which bounds the number of recursion steps, so
that the definition is structural and kernel-computable. -/
def replaceAllFuel (pat rep : List Char) : Nat → List Char → List Char
  | 0, s => s
  | _ + 1, [] => []
  | fuel + 1, c :: rest =>
    if pat.isPrefixOf (c :: rest) then
      rep ++ replaceAllFuel pat rep fuel (rest.drop (pat.length - 1))
    else
      c :: replaceAllFuel pat rep fuel rest

/-- Python `s.replace(pat, rep)`.  The script never calls `replace` with an
empty pattern, so that corner is mapped to the identity. -/
def pyReplace (s pat rep : String) : String :=
  if pat.data = [] then s
  else String.mk (replaceAllFuel pat.data rep.data s.data.length s.data)

/-- Python substring test `pat in s`. -/
def containsSub (s pat : List Char) : Bool :=
  (List.range (s.length + 1)).any (fun i => pat.isPrefixOf (s.drop i))

/-- Worker for `re.sub(r"<[^>]+>", "", s)`: at each `<`, if a later `>`
exists with at least one character in between, the whole span up to that
first `>` is removed; otherwise the `<` is kept.  Fuel as in
`replaceAllFuel`. -/
def stripTagsFuel : Nat → List Char → List Char
  | 0, s => s
  | _ + 1, [] => []
  | fuel + 1, c :: rest =>
    if c = '<' then
      match rest.findIdx? (fun d => d = '>') with
      | some j =>
        if 1 ≤ j then stripTagsFuel fuel (rest.drop (j + 1))
        else c :: stripTagsFuel fuel rest
      | none => c :: stripTagsFuel fuel rest
    else c :: stripTagsFuel fuel rest

/-- The HTML-tag-stripping regex substitution applied to feed summaries. -/
def stripTags (s : String) : String :=
  String.mk (stripTagsFuel s.data.length s.data)

/-- One parsed syndication-feed entry, as `feedparser` presents it to the
script: optional `published_parsed` / `updated_parsed` timestamps (seconds
since the epoch, UTC), a title and a summary. -/
structure FeedEntry where
  published_parsed : Option Int
  updated_parsed : Option Int
  title : String
  summary : String
deriving Repr, DecidableEq

/-- A collected news item: `{"title": ..., "summary": ...}`. -/
structure NewsItem where
  title : String
  summary : String
deriving Repr, DecidableEq

/-- The publish timestamp resolution of lines 105-109: `published_parsed`
if present, else `updated_parsed`, else none. -/
def resolvedTime (e : FeedEntry) : Option Int :=
  e.published_parsed.orElse (fun _ => e.updated_parsed)

/-- The recency test of line 112: an entry is skipped when it has a
resolvable timestamp strictly older than the cutoff. -/
def isStale (cutoff : Int) (published : Option Int) : Bool :=
  match published with
  | some t => decide (t < cutoff)
  | none => false

/-- The per-entry body of the `fetch_rss_items` loop (lines 104-121): skip
the entry when it is stale, otherwise strip title and summary and keep it
only when the stripped title is non-empty.  `cutoff` is
`now - HOURS_LOOKBACK` in seconds. -/
def keepEntry (cutoff : Int) (e : FeedEntry) : Option NewsItem :=
  let published := resolvedTime e
  if isStale cutoff published then none
  else
    let title := pyStrip e.title
    let summary := stripTags (pyStrip e.summary)
    if title ≠ "" then some ⟨title, summary⟩ else none

/-- The title-deduplication loop of lines 126-131: keep the first item of
each title, preserving order. -/
def dedupAux (seen : List String) : List NewsItem → List NewsItem
  | [] => []
  | it :: rest =>
    if seen.contains it.title then dedupAux seen rest
    else it :: dedupAux (it.title :: seen) rest

/-- Deduplicate a list of news items by exact title, first-seen order. -/
def dedupByTitle (items : List NewsItem) : List NewsItem := dedupAux [] items

/-- The lookback window, in hours (line 23). -/
def HOURS_LOOKBACK : Int := 8

/-- `fetch_rss_items`, with the network abstracted: each feed either fails
(`Except.error`, caught by the per-feed `try`/`except` and contributing
nothing) or yields a list of parsed entries.  All surviving items are then
deduplicated by title. -/
def fetch_rss_items (cutoff : Int) (feeds : List (Except PyErr (List FeedEntry))) :
    List NewsItem :=
  dedupByTitle
    ((feeds.map (fun r =>
      match r with
      | .error _ => []
      | .ok es => es.filterMap (keepEntry cutoff))).flatten)

/-- The closed tag vocabulary of lines 186-189. -/
def valid_tags : List String :=
  ["scandal", "uturn", "resignation", "broken-promise", "failure",
   "polls", "economic", "security", "hypocrisy", "crisis", "press", "rebellion"]

/-- Python membership test `k in event` for the key check of line 192:
dictionary key lookup on objects, substring test on strings, element
equality on lists, and a `TypeError` on the remaining (non-container,
non-string) values. -/
def pyContainsKey (ev : JValue) (k : String) : Except PyErr Bool :=
  match ev with
  | .obj fields => .ok (fields.any (fun f => f.1 == k))
  | .str s => .ok (containsSub s.data k.data)
  | .arr xs => .ok (xs.any (fun v => match v with | .str s => s == k | _ => false))
  | _ => .error .typeError

/-- The short-circuiting `all(k in event for k in (...))` of line 192. -/
def pyHasAllKeys (ev : JValue) : List String → Except PyErr Bool
  | [] => .ok true
  | k :: ks =>
    match pyContainsKey ev k with
    | .error e => .error e
    | .ok true => pyHasAllKeys ev ks
    | .ok false => .ok false

/-- Python subscription `event[k]`: a dictionary lookup on objects and a
`TypeError` otherwise (string and list subscripts take integers).  The
missing-key case is collapsed into `typeError` as well; it is unreachable
here because subscription only happens after the key check. -/
def pyGetItem (ev : JValue) (k : String) : Except PyErr JValue :=
  match ev with
  | .obj fields =>
    match fields.find? (fun f => f.1 == k) with
    | some f => .ok f.2
    | none => .error .typeError
  | _ => .error .typeError

/-- Python iteration over `event["tags"]`: lists yield their elements,
strings their characters (as one-character strings), dictionaries their
keys; other values are not iterable and raise `TypeError`. -/
def pyIterate : JValue → Except PyErr (List JValue)
  | .arr xs => .ok xs
  | .str s => .ok (s.data.map (fun c => JValue.str (String.singleton c)))
  | .obj fields => .ok (fields.map (fun f => JValue.str f.1))
  | _ => .error .typeError

/-- The tag comprehension of line 194:
`[t for t in tags if t in valid_tags]`.  A string element is kept when it
is in the vocabulary; lists and dictionaries are unhashable and make the
set-membership test raise `TypeError`; other hashable values are simply
not members and are dropped. -/
def filterTags : List JValue → Except PyErr (List String)
  | [] => .ok []
  | .str s :: ts =>
    match filterTags ts with
    | .error e => .error e
    | .ok rest => .ok (if s ∈ valid_tags then s :: rest else rest)
  | .arr _ :: _ => .error .typeError
  | .obj _ :: _ => .error .typeError
  | _ :: ts => filterTags ts

/-- Python `v.replace(pat, rep)` reached through an attribute lookup:
only strings have a `replace` method, every other value raises
`AttributeError` (lines 198-199). -/
def pyStrReplaceAttr (v : JValue) (pat rep : String) : Except PyErr String :=
  match v with
  | .str s => .ok (pyReplace s pat rep)
  | _ => .error .attributeError

/-- Python `repr`-style rendering used inside `str` of containers.  The
fuel is an upper bound on nesting depth; `sizeOf` always suffices, so the
zero-fuel container branches are unreachable. -/
def pyReprFuel : Nat → JValue → String
  | _, .null => "None"
  | _, .bool b => if b then "True" else "False"
  | _, .num n => toString n
  | _, .str s => sqS ++ s ++ sqS
  | 0, .arr _ => "[]"
  | fuel + 1, .arr xs =>
    "[" ++ String.intercalate ", " (xs.map (pyReprFuel fuel)) ++ "]"
  | 0, .obj _ => "\x7b\x7d"
  | fuel + 1, .obj fields =>
    "\x7b" ++
      String.intercalate ", "
        (fields.map (fun p => sqS ++ p.1 ++ sqS ++ ": " ++ pyReprFuel fuel p.2)) ++
      "\x7d"

mutual

/-- A computable size of a JSON value, used as a fuel bound for `pyStr`.
It strictly dominates nesting depth. -/
def jsize : JValue → Nat
  | .null => 1
  | .bool _ => 1
  | .num _ => 1
  | .str _ => 1
  | .arr xs => 1 + jsizeList xs
  | .obj fs => 1 + jsizeFields fs

def jsizeList : List JValue → Nat
  | [] => 0
  | v :: vs => 1 + jsize v + jsizeList vs

def jsizeFields : List (String × JValue) → Nat
  | [] => 0
  | p :: ps => 1 + jsize p.2 + jsizeFields ps

end

/-- Python `str(v)`, as the injector's f-string applies it to
`event["date"]`: a string renders as itself, containers via `repr` of
their parts. -/
def pyStr (v : JValue) : String :=
  match v with
  | .str s => s
  | v => pyReprFuel (jsize v) v

/-- One validated event record, as the loop of lines 191-200 leaves it and
as `inject_events` consumes it.  `date` holds the f-string conversion
`str(event["date"])`; the conversion is pure, so applying it when the
record is built (rather than at rendering time, as the f-string does) is
observationally identical. -/
structure EventRec where
  date : String
  title : String
  desc : String
  tags : List String
deriving Repr, DecidableEq

/-- The body of the validation loop for one element of the parsed array
(lines 191-200): the four-key check (`continue` on a clean `False`), tag
filtering with the `["crisis"]` default, and single-quote escaping of
title and description.  `ok none` is the silently-dropped case. -/
def validateEvent (ev : JValue) : Except PyErr (Option EventRec) :=
  match pyHasAllKeys ev ["date", "title", "desc", "tags"] with
  | .error e => .error e
  | .ok false => .ok none
  | .ok true =>
    match pyGetItem ev "tags" with
    | .error e => .error e
    | .ok tagsVal =>
      match pyIterate tagsVal with
      | .error e => .error e
      | .ok tagList =>
        match filterTags tagList with
        | .error e => .error e
        | .ok tags0 =>
          let tags := if tags0 = [] then ["crisis"] else tags0
          match pyGetItem ev "title" with
          | .error e => .error e
          | .ok titleVal =>
            match pyStrReplaceAttr titleVal sqS bsqS with
            | .error e => .error e
            | .ok title =>
              match pyGetItem ev "desc" with
              | .error e => .error e
              | .ok descVal =>
                match pyStrReplaceAttr descVal sqS bsqS with
                | .error e => .error e
                | .ok desc =>
                  match pyGetItem ev "date" with
                  | .error e => .error e
                  | .ok dateVal => .ok (some ⟨pyStr dateVal, title, desc, tags⟩)

/-- The whole validation loop: elements are processed in order, dropped
elements contribute nothing, and the first raised exception aborts the
loop (uncaught — the `try` of line 175 only covers `json.loads`). -/
def validateEvents : List JValue → Except PyErr (List EventRec)
  | [] => .ok []
  | ev :: rest =>
    match validateEvent ev with
    | .error e => .error e
    | .ok none => validateEvents rest
    | .ok (some r1) =>
      match validateEvents rest with
      | .error e => .error e
      | .ok others => .ok (r1 :: others)

/-- What the response-processing part of `generate_events` produces:
the validated records (already capped at 3) and whether the
failed-to-parse warning of lines 178-179 was printed. -/
structure GenParse where
  records : List EventRec
  parseWarning : Bool
deriving Repr, DecidableEq

/-- The opening fence removed by `re.sub(r"^```json\s*", "", text)`. -/
def fenceOpen : String := "```json"

/-- The closing fence removed by `re.sub(r"\s*```$", "", text)`. -/
def fenceClose : String := "```"

/-- The two fence-stripping substitutions of lines 172-173.  Both regexes
are anchored, so each can match at most once; `$` is modelled as end of
input (the also-before-a-final-newline corner of Python `$` is irrelevant
to every claim, which treat the subsequent parse as an oracle). -/
def stripFences (s : String) : String :=
  let d1 :=
    if fenceOpen.data.isPrefixOf s.data then
      (s.data.drop fenceOpen.data.length).dropWhile pyIsSpace
    else s.data
  let r := d1.reverse
  let r2 :=
    if fenceClose.data.reverse.isPrefixOf r then
      (r.drop fenceClose.data.length).dropWhile pyIsSpace
    else r
  String.mk r2.reverse

/-- Lines 166-202 of `generate_events`: strip the response, handle the
`NONE` sentinel, strip code fences, parse (via the `jsonParse` oracle
standing for `json.loads`; `none` is a `JSONDecodeError`, caught and
logged), discard non-array results, validate each element and cap the
result at 3 records. -/
def parseModelResponse (jsonParse : String → Option JValue) (raw : String) :
    Except PyErr GenParse :=
  let text := pyStrip raw
  if pyUpper text = "NONE" then .ok ⟨[], false⟩
  else
    let text2 := stripFences text
    match jsonParse text2 with
    | none => .ok ⟨[], true⟩
    | some (.arr events) =>
      match validateEvents events with
      | .error e => .error e
      | .ok validated => .ok ⟨validated.take 3, false⟩
    | some _ => .ok ⟨[], false⟩

/-- How a call of `generate_events` can end: `sys.exit(1)` on a missing
credential, an uncaught exception, or a normal return. -/
inductive GenOutcome where
  | fatalExit (code : Nat)
  | raised (e : PyErr)
  | ok (records : List EventRec) (parseWarning : Bool)
deriving Repr, DecidableEq

/-- `generate_events` (lines 142-202): the `GEMINI_API_KEY` check with its
`sys.exit(1)`, the single un-guarded Gemini call (an `Except` input, since
the service is external), and the response processing. -/
def generate_events (apiKey : Option String) (callModel : Except PyErr String)
    (jsonParse : String → Option JValue) : GenOutcome :=
  match apiKey with
  | none => .fatalExit 1
  | some _ =>
    match callModel with
    | .error e => .raised e
    | .ok raw =>
      match parseModelResponse jsonParse raw with
      | .error e => .raised e
      | .ok g => .ok g.records g.parseWarning

/-- The anchor token of line 223. -/
def anchor : String := "const events = ["

/-- The `tags_str` join of line 209. -/
def renderTags (tags : List String) : String :=
  String.intercalate ", " (tags.map (fun t => sqS ++ t ++ sqS))

/-- The `event_str` f-string block of lines 210-217. -/
def renderEvent (ev : EventRec) : String :=
  "            \x7b\n                date: " ++ sqS ++ ev.date ++ sqS ++
  ",\n                title: " ++ sqS ++ ev.title ++ sqS ++
  ",\n                desc: " ++ sqS ++ ev.desc ++ sqS ++
  ",\n                tags: [" ++ renderTags ev.tags ++ "]\n            \x7d"

/-- `insert_block = ",\n".join(event_strings)` of line 220. -/
def eventStringsJoin (evs : List EventRec) : String :=
  String.intercalate ",\n" (evs.map renderEvent)

/-- `inject_events` (lines 205-228): render the new records and perform
`html.replace("const events = [", "const events = [\n" + block + ",")`.
Python `str.replace` with no count argument replaces every occurrence. -/
def inject_events (html : String) (new_events : List EventRec) : String :=
  pyReplace html anchor (anchor ++ "\n" ++ eventStringsJoin new_events ++ ",")

/-- The inputs of one run of `main`: the index-file read, the environment
credential, the current UTC time in seconds, the per-feed fetch results,
the Gemini call, the `json.loads` oracle, and the index-file write. -/
structure Env where
  indexRead : Except PyErr String
  apiKey : Option String
  now : Int
  feeds : List (Except PyErr (List FeedEntry))
  callModel : Except PyErr String
  jsonParse : String → Option JValue
  indexWrite : Except PyErr Unit

/-- How the process ends: normal completion, `sys.exit` with a code, or an
uncaught exception (which also terminates the interpreter non-zero, with a
traceback). -/
inductive Outcome where
  | completed
  | exited (code : Nat)
  | raised (e : PyErr)
deriving Repr, DecidableEq

/-- `main` (lines 231-264).  The `open`/`read` of lines 234-235 and the
`open`/`write` of lines 261-262 are not inside any `try`, so their
failures propagate, as do exceptions escaping `generate_events`.  The two
`return`-early branches (no news items, no new events) complete normally,
and the document write happens only after the updated text is fully
computed. -/
def main_model (env : Env) : Outcome :=
  match env.indexRead with
  | .error e => .raised e
  | .ok html =>
    let cutoff := env.now - HOURS_LOOKBACK * 3600
    let items := fetch_rss_items cutoff env.feeds
    if items.isEmpty then .completed
    else
      match generate_events env.apiKey env.callModel env.jsonParse with
      | .fatalExit c => .exited c
      | .raised e => .raised e
      | .ok [] _ => .completed
      | .ok (r1 :: rest) _ =>
        let _updated := inject_events html (r1 :: rest)
        match env.indexWrite with
        | .error e => .raised e
        | .ok _ => .completed

/-- Character-level escapedness: every single-quote character in the list
is immediately preceded by a backslash character. -/
def quoteEscaped (cs : List Char) : Prop :=
  ∀ i, cs[i]? = some sqChar → ∃ j, i = j + 1 ∧ cs[j]? = some bsChar

/-!  Lemmas about the `str.replace` worker. -/

/-- A non-empty pattern is never a prefix of the empty list. -/
lemma isPrefixOf_nil_false (pat : List Char) (hp : pat ≠ []) :
    pat.isPrefixOf ([] : List Char) = false := by
  cases pat with
  | nil => exact absurd rfl hp
  | cons c cs => rfl

/-- When the pattern occurs nowhere in `s`, the replace scan copies `s`. -/
lemma replaceAllFuel_no_occ (pat rep : List Char) :
    ∀ fuel s, (∀ i, ¬ pat.isPrefixOf (s.drop i) = true) →
      replaceAllFuel pat rep fuel s = s := by
  intro fuel
  induction fuel with
  | zero => intro s _; rfl
  | succ n ih =>
    intro s hs
    cases s with
    | nil => rfl
    | cons c rest =>
      have h0 : ¬ pat.isPrefixOf (c :: rest) = true := by simpa using hs 0
      simp only [replaceAllFuel]
      rw [if_neg h0]
      have := ih rest (fun i => by simpa [List.drop_succ_cons] using hs (i + 1))
      rw [this]

/-- When the pattern occurs in the scanned list exactly once — the list
splits as `pre ++ pat ++ post` and every occurrence index equals
`pre.length` — the replace scan rewrites that single occurrence. -/
lemma replaceAllFuel_unique_occ (pat rep : List Char) (hp : pat ≠ []) :
    ∀ pre fuel post,
      (pre ++ pat ++ post).length ≤ fuel →
      (∀ i, pat.isPrefixOf ((pre ++ pat ++ post).drop i) = true → i = pre.length) →
      replaceAllFuel pat rep fuel (pre ++ pat ++ post) = pre ++ rep ++ post := by
  intro pre
  induction pre with
  | nil =>
    intro fuel post hf hu
    cases pat with
    | nil => exact absurd rfl hp
    | cons p0 pt =>
      cases fuel with
      | zero => simp at hf
      | succ n =>
        have hmatch : (p0 :: pt).isPrefixOf (p0 :: (pt ++ post)) = true := by
          rw [List.isPrefixOf_iff_prefix]
          exact List.prefix_append _ _
        show replaceAllFuel (p0 :: pt) rep (n + 1) (p0 :: (pt ++ post)) = [] ++ rep ++ post
        simp only [replaceAllFuel]
        rw [if_pos hmatch]
        have hdrop : (pt ++ post).drop ((p0 :: pt).length - 1) = post := by
          simp only [List.length_cons, Nat.add_sub_cancel]
          exact List.drop_left pt post
        rw [hdrop]
        have hno : ∀ i, ¬ (p0 :: pt).isPrefixOf (post.drop i) = true := by
          intro i hi
          have hocc : (p0 :: pt).isPrefixOf ((([] : List Char) ++ (p0 :: pt) ++ post).drop ((p0 :: pt).length + i)) = true := by
            show (p0 :: pt).isPrefixOf (((p0 :: pt) ++ post).drop ((p0 :: pt).length + i)) = true
            rw [List.drop_append]
            exact hi
          have := hu ((p0 :: pt).length + i) hocc
          simp at this
        rw [replaceAllFuel_no_occ (p0 :: pt) rep n post hno]
        rfl
  | cons c pre' ih =>
    intro fuel post hf hu
    cases fuel with
    | zero => simp at hf
    | succ n =>
      have hnom : ¬ pat.isPrefixOf (c :: (pre' ++ pat ++ post)) = true := by
        intro hcontra
        have h0 := hu 0 (by simpa using hcontra)
        simp at h0
      show replaceAllFuel pat rep (n + 1) (c :: (pre' ++ pat ++ post)) = (c :: pre') ++ rep ++ post
      simp only [replaceAllFuel]
      rw [if_neg hnom]
      have hstep := ih n post
        (by simp at hf ⊢; omega)
        (by
          intro i hi
          have := hu (i + 1) (by simpa [List.drop_succ_cons] using hi)
          simpa using this)
      rw [hstep]
      rfl

/-- String-level version: if the document splits as `pre ++ pat ++ post`
with the occurrence index unique among positions below the document
length, then `str.replace` rewrites exactly that occurrence. -/
lemma pyReplace_unique (doc pat rep : String) (pre post : List Char)
    (hp : pat.data ≠ [])
    (hd : doc.data = pre ++ pat.data ++ post)
    (hu : ∀ i, i < doc.data.length →
      pat.data.isPrefixOf (doc.data.drop i) = true → i = pre.length) :
    (pyReplace doc pat rep).data = pre ++ rep.data ++ post := by
  have hu' : ∀ i, pat.data.isPrefixOf ((pre ++ pat.data ++ post).drop i) = true →
      i = pre.length := by
    intro i hi
    by_cases hlt : i < doc.data.length
    · exact hu i hlt (by rw [hd]; exact hi)
    · exfalso
      rw [List.drop_eq_nil_of_le (by rw [hd] at hlt; omega)] at hi
      rw [isPrefixOf_nil_false pat.data hp] at hi
      exact Bool.false_ne_true hi
  unfold pyReplace
  rw [if_neg hp]
  show (replaceAllFuel pat.data rep.data doc.data.length doc.data) = pre ++ rep.data ++ post
  rw [hd]
  exact replaceAllFuel_unique_occ pat.data rep.data hp pre _ post (le_refl _) hu'

/-- C1: for every document containing the anchor token exactly once,
`inject_events` with an empty record list returns the document unchanged
except for the insertion of the two characters newline-comma (the no-op
insertion point left by the empty block) immediately after the anchor:
zero record blocks are added and every other byte is preserved. -/
theorem inject_empty_preserves_document (doc : String) (pre post : List Char)
    (hd : doc.data = pre ++ anchor.data ++ post)
    (hu : ∀ i, i < doc.data.length →
      anchor.data.isPrefixOf (doc.data.drop i) = true → i = pre.length) :
    (inject_events doc []).data = pre ++ anchor.data ++ ['\n', ','] ++ post := by
  have hp : anchor.data ≠ [] := by decide
  unfold inject_events
  rw [pyReplace_unique doc anchor (anchor ++ "\n" ++ eventStringsJoin [] ++ ",")
    pre post hp hd hu]
  have hrep : (anchor ++ "\n" ++ eventStringsJoin [] ++ ",").data =
      anchor.data ++ ['\n', ','] := by decide
  rw [hrep]
  simp [List.append_assoc]

/-- Witness for C1 at a concrete document with a unique anchor. -/
theorem inject_empty_preserves_document_witness :
    (inject_events "AB const events = [ C ]" []).data =
      "AB ".data ++ anchor.data ++ ['\n', ','] ++ " C ]".data :=
  inject_empty_preserves_document "AB const events = [ C ]" "AB ".data " C ]".data
    (by decide) (by decide)

/-- C2 (amended part): on a document whose anchor occurrence is unique,
`inject_events` with records `evs` yields the document with
newline, the comma-newline-joined record blocks and a trailing comma
inserted immediately after the anchor, everything else unchanged. -/
theorem inject_unique_anchor_splice (doc : String) (pre post : List Char)
    (evs : List EventRec) (hne : evs ≠ [])
    (hd : doc.data = pre ++ anchor.data ++ post)
    (hu : ∀ i, i < doc.data.length →
      anchor.data.isPrefixOf (doc.data.drop i) = true → i = pre.length) :
    (inject_events doc evs).data =
      pre ++ anchor.data ++ ['\n'] ++ (eventStringsJoin evs).data ++ [','] ++ post := by
  have hp : anchor.data ≠ [] := by decide
  unfold inject_events
  rw [pyReplace_unique doc anchor (anchor ++ "\n" ++ eventStringsJoin evs ++ ",")
    pre post hp hd hu]
  have h1 : ("\n" : String).data = ['\n'] := rfl
  have h2 : ("," : String).data = [','] := rfl
  have hrep : (anchor ++ "\n" ++ eventStringsJoin evs ++ ",").data =
      anchor.data ++ ['\n'] ++ (eventStringsJoin evs).data ++ [','] := by
    rw [String.data_append, String.data_append, String.data_append, h1, h2]
  rw [hrep]
  simp [List.append_assoc]

/-- Witness for the amended C2 at a concrete document and one record. -/
theorem inject_unique_anchor_splice_witness :
    (inject_events "AB const events = [ C ]" [⟨"D", "T", "S", ["crisis"]⟩]).data =
      "AB ".data ++ anchor.data ++ ['\n'] ++
        (eventStringsJoin [⟨"D", "T", "S", ["crisis"]⟩]).data ++ [','] ++ " C ]".data :=
  inject_unique_anchor_splice "AB const events = [ C ]" "AB ".data " C ]".data
    [⟨"D", "T", "S", ["crisis"]⟩] (by decide) (by decide) (by decide)

set_option maxRecDepth 20000 in
/-- C2 (counterexample): `str.replace` with no count argument replaces
every occurrence, so on a document containing the anchor twice the
injector modifies both, not only the first as the claim states: the output
differs from the claim-predicted first-occurrence-only splice and equals
the both-occurrences splice. -/
theorem inject_replaces_all_occurrences_cex :
    inject_events "A const events = [const events = [B" [⟨"D", "T", "S", ["crisis"]⟩] ≠
      String.mk ("A ".data ++ anchor.data ++ ['\n'] ++
        (eventStringsJoin [⟨"D", "T", "S", ["crisis"]⟩]).data ++ [','] ++
        "const events = [B".data) ∧
    inject_events "A const events = [const events = [B" [⟨"D", "T", "S", ["crisis"]⟩] =
      String.mk ("A ".data ++ anchor.data ++ ['\n'] ++
        (eventStringsJoin [⟨"D", "T", "S", ["crisis"]⟩]).data ++ [','] ++
        anchor.data ++ ['\n'] ++
        (eventStringsJoin [⟨"D", "T", "S", ["crisis"]⟩]).data ++ [','] ++ "B".data) := by
  constructor
  · decide
  · decide

/-- C3 (counterexample): a feed entry with no resolvable timestamp but an
empty title is not retained by `fetch_rss_items`, although the claimed
iff (retained exactly when the timestamp is absent or recent) says it
must be. -/
theorem fetch_retention_iff_cex :
    resolvedTime ⟨none, none, "", ""⟩ = none ∧
    keepEntry 0 ⟨none, none, "", ""⟩ = none ∧
    fetch_rss_items 0 [Except.ok [⟨none, none, "", ""⟩]] = [] :=
  ⟨rfl, rfl, rfl⟩

/-- C3 (amended): the per-entry retention decision of `fetch_rss_items`
keeps an entry exactly when its resolved timestamp is absent or at least
the cutoff `now - W`, AND its stripped title is non-empty; retained items
are afterwards deduplicated by title. -/
theorem keepEntry_iff_recent_and_titled (cutoff : Int) (e : FeedEntry) :
    (keepEntry cutoff e).isSome = true ↔
      ((∀ t, resolvedTime e = some t → cutoff ≤ t) ∧ pyStrip e.title ≠ "") := by
  simp only [keepEntry]
  by_cases hs : isStale cutoff (resolvedTime e) = true
  · rw [if_pos hs]
    constructor
    · intro hfalse; simp at hfalse
    · rintro ⟨hall, -⟩
      exfalso
      unfold isStale at hs
      cases h : resolvedTime e with
      | none => rw [h] at hs; simp at hs
      | some t =>
        rw [h] at hs
        simp at hs
        have := hall t h
        omega
  · rw [if_neg hs]
    by_cases ht : pyStrip e.title ≠ ""
    · rw [if_pos ht]
      simp only [Option.isSome_some, true_iff]
      refine ⟨?_, ht⟩
      intro t h
      unfold isStale at hs
      rw [h] at hs
      simp at hs
      omega
    · rw [if_neg ht]
      constructor
      · intro hfalse; simp at hfalse
      · rintro ⟨-, hcontra⟩; exact absurd hcontra ht

/-- C5: raw model text whose stripped form upper-cases to the sentinel
`NONE` makes `generate_events` return zero records without error,
whatever the parse oracle would have said. -/
theorem none_sentinel_yields_empty (jsonParse : String → Option JValue) (raw : String)
    (h : pyUpper (pyStrip raw) = "NONE") :
    parseModelResponse jsonParse raw = .ok ⟨[], false⟩ := by
  unfold parseModelResponse
  rw [if_pos h]

/-- Witness for C5 at a mixed-case, whitespace-padded sentinel. -/
theorem none_sentinel_yields_empty_witness :
    pyUpper (pyStrip "  NoNe ") = "NONE" ∧
    parseModelResponse (fun _ => none) "  NoNe " = .ok ⟨[], false⟩ :=
  ⟨by decide, none_sentinel_yields_empty (fun _ => none) "  NoNe " (by decide)⟩

/-- C6 (counterexample): the raw text "none" fails JSON parsing (it is not
valid JSON, modelled by the constantly-failing oracle), yet the validator
returns zero records with NO parse warning, because the case-insensitive
sentinel branch fires before parsing; this refutes the claimed
for-every-unparseable-text warning. -/
theorem parse_failure_warning_cex :
    parseModelResponse (fun _ => none) "none" = .ok ⟨[], false⟩ ∧
    ¬ parseModelResponse (fun _ => none) "none" = .ok ⟨[], true⟩ := by
  have h0 : parseModelResponse (fun _ => none) "none" = .ok ⟨[], false⟩ := rfl
  refine ⟨h0, ?_⟩
  rw [h0]
  simp

/-- C6 (amended): for raw text whose stripped form is not the sentinel,
a JSON parse failure on the fence-stripped text yields exactly zero
records and the logged warning, and no failure is thrown. -/
theorem parse_failure_yields_empty_warning (jsonParse : String → Option JValue)
    (raw : String)
    (hN : ¬ pyUpper (pyStrip raw) = "NONE")
    (hp : jsonParse (stripFences (pyStrip raw)) = none) :
    parseModelResponse jsonParse raw = .ok ⟨[], true⟩ := by
  unfold parseModelResponse
  rw [if_neg hN]
  simp only [hp]

/-- Witness for the amended C6 on unparseable non-sentinel text. -/
theorem parse_failure_yields_empty_warning_witness :
    ¬ pyUpper (pyStrip "garbage") = "NONE" ∧
    parseModelResponse (fun _ => none) "garbage" = .ok ⟨[], true⟩ :=
  ⟨by decide, parse_failure_yields_empty_warning (fun _ => none) "garbage" (by decide) rfl⟩

/-- C8: when the parsed array validates to more than 3 records, the
validator returns exactly the first 3 of them — a length-3 prefix of the
validated list, hence in original order. -/
theorem validator_caps_at_three (jsonParse : String → Option JValue) (raw : String)
    (events : List JValue) (l : List EventRec)
    (hN : ¬ pyUpper (pyStrip raw) = "NONE")
    (hp : jsonParse (stripFences (pyStrip raw)) = some (.arr events))
    (hv : validateEvents events = .ok l)
    (hlen : 3 < l.length) :
    parseModelResponse jsonParse raw = .ok ⟨l.take 3, false⟩ ∧
    (l.take 3).length = 3 ∧ l.take 3 <+: l := by
  refine ⟨?_, ?_, List.take_prefix 3 l⟩
  · unfold parseModelResponse
    rw [if_neg hN]
    simp only [hp, hv]
  · rw [List.length_take]
    omega

/-- Witness for C8 at an array of four identical well-formed objects. -/
theorem validator_caps_at_three_witness :
    parseModelResponse
      (fun _ => some (JValue.arr
        [JValue.obj [("date", JValue.str "d"), ("title", JValue.str "t"),
          ("desc", JValue.str "s"), ("tags", JValue.arr [JValue.str "crisis"])],
         JValue.obj [("date", JValue.str "d"), ("title", JValue.str "t"),
          ("desc", JValue.str "s"), ("tags", JValue.arr [JValue.str "crisis"])],
         JValue.obj [("date", JValue.str "d"), ("title", JValue.str "t"),
          ("desc", JValue.str "s"), ("tags", JValue.arr [JValue.str "crisis"])],
         JValue.obj [("date", JValue.str "d"), ("title", JValue.str "t"),
          ("desc", JValue.str "s"), ("tags", JValue.arr [JValue.str "crisis"])]])) "x" =
      .ok ⟨[⟨"d", "t", "s", ["crisis"]⟩, ⟨"d", "t", "s", ["crisis"]⟩,
            ⟨"d", "t", "s", ["crisis"]⟩, ⟨"d", "t", "s", ["crisis"]⟩].take 3, false⟩ ∧
    ([⟨"d", "t", "s", ["crisis"]⟩, ⟨"d", "t", "s", ["crisis"]⟩,
      ⟨"d", "t", "s", ["crisis"]⟩, (⟨"d", "t", "s", ["crisis"]⟩ : EventRec)].take 3).length = 3 ∧
    [⟨"d", "t", "s", ["crisis"]⟩, ⟨"d", "t", "s", ["crisis"]⟩,
     ⟨"d", "t", "s", ["crisis"]⟩, (⟨"d", "t", "s", ["crisis"]⟩ : EventRec)].take 3 <+:
    [⟨"d", "t", "s", ["crisis"]⟩, ⟨"d", "t", "s", ["crisis"]⟩,
     ⟨"d", "t", "s", ["crisis"]⟩, ⟨"d", "t", "s", ["crisis"]⟩] :=
  validator_caps_at_three _ "x" _ _ (by decide) rfl rfl (by decide)

/-- C10: a parsed array with the non-object element `5` (raw text "[5]")
makes the per-element key-membership check raise `TypeError`, which is not
caught anywhere: the element is not dropped, no empty list is returned,
and the exception escapes `generate_events`. -/
theorem nonobject_element_raises :
    validateEvents [JValue.num 5] = .error .typeError ∧
    generate_events (some "k") (.ok "[5]")
      (fun s => if s = "[5]" then some (.arr [JValue.num 5]) else none) =
      .raised .typeError :=
  ⟨rfl, rfl⟩

/-- Every tag list produced by the tag comprehension draws from the
vocabulary. -/
lemma filterTags_subset : ∀ ts tags0, filterTags ts = .ok tags0 →
    ∀ t ∈ tags0, t ∈ valid_tags := by
  intro ts
  induction ts with
  | nil =>
    intro tags0 h t ht
    simp only [filterTags] at h
    injection h with h'
    subst h'
    simp at ht
  | cons v rest ih =>
    intro tags0 h t ht
    cases v with
    | str s =>
      simp only [filterTags] at h
      cases hrest : filterTags rest with
      | error e => rw [hrest] at h; cases h
      | ok r0 =>
        rw [hrest] at h
        injection h with h'
        subst h'
        by_cases hm : s ∈ valid_tags
        · rw [if_pos hm] at ht
          rcases List.mem_cons.mp ht with h1 | h1
          · rw [h1]; exact hm
          · exact ih r0 hrest t h1
        · rw [if_neg hm] at ht
          exact ih r0 hrest t ht
    | arr xs => simp [filterTags] at h
    | obj fs => simp [filterTags] at h
    | null => exact ih tags0 (by simpa [filterTags] using h) t ht
    | bool b => exact ih tags0 (by simpa [filterTags] using h) t ht
    | num n => exact ih tags0 (by simpa [filterTags] using h) t ht

/-- The single-quote escape of `str.replace("'", "\\'")` leaves every
single quote in its output immediately preceded by a backslash. -/
lemma replaceAll_escape_quotes :
    ∀ fuel s, s.length ≤ fuel →
      quoteEscaped (replaceAllFuel [sqChar] [bsChar, sqChar] fuel s) := by
  intro fuel
  induction fuel with
  | zero =>
    intro s hs
    have hnil : s = [] := List.length_eq_zero.mp (Nat.le_zero.mp hs)
    subst hnil
    intro i hi
    simp [replaceAllFuel] at hi
  | succ n ih =>
    intro s hs
    cases s with
    | nil =>
      intro i hi
      simp [replaceAllFuel] at hi
    | cons c rest =>
      simp only [replaceAllFuel]
      have hlen : rest.length ≤ n := by simp at hs; omega
      have ht := ih rest hlen
      by_cases hc : [sqChar].isPrefixOf (c :: rest) = true
      · rw [if_pos hc]
        have hdrop : rest.drop (([sqChar] : List Char).length - 1) = rest := by simp
        rw [hdrop]
        intro i hi
        cases i with
        | zero =>
          exfalso
          simp only [List.cons_append, List.getElem?_cons_zero] at hi
          injection hi with hbs
          exact absurd hbs (by decide)
        | succ i1 =>
          cases i1 with
          | zero =>
            refine ⟨0, rfl, ?_⟩
            simp
          | succ k =>
            have hk : (replaceAllFuel [sqChar] [bsChar, sqChar] n rest)[k]? = some sqChar := by
              simpa using hi
            obtain ⟨j, hj1, hj2⟩ := ht k hk
            refine ⟨j + 2, by omega, ?_⟩
            simpa using hj2
      · rw [if_neg hc]
        have hcq : ¬ c = sqChar := by
          intro hcontra
          subst hcontra
          apply hc
          simp [List.isPrefixOf]
        intro i hi
        cases i with
        | zero =>
          exfalso
          simp only [List.getElem?_cons_zero] at hi
          injection hi with h0
          exact hcq h0
        | succ k =>
          have hk : (replaceAllFuel [sqChar] [bsChar, sqChar] n rest)[k]? = some sqChar := by
            simpa using hi
          obtain ⟨j, hj1, hj2⟩ := ht k hk
          refine ⟨j + 1, by omega, ?_⟩
          simpa [hj1] using hj2

/-- String-level corollary: a field that went through the single-quote
escape is quote-escaped. -/
lemma pyReplace_escape_quotes (s : String) :
    quoteEscaped (pyReplace s sqS bsqS).data := by
  unfold pyReplace
  rw [if_neg (by decide : ¬ (sqS.data = []))]
  show quoteEscaped (replaceAllFuel sqS.data bsqS.data s.data.length s.data)
  have h1 : sqS.data = [sqChar] := rfl
  have h2 : bsqS.data = [bsChar, sqChar] := rfl
  rw [h1, h2]
  exact replaceAll_escape_quotes s.data.length s.data (le_refl _)

/-- Structure of a record that survives validation: its title and desc are
single-quote-escaped copies of the model's strings, and its tag list is
non-empty and drawn from the vocabulary. -/
lemma validateEvent_some {ev : JValue} {r1 : EventRec}
    (h : validateEvent ev = .ok (some r1)) :
    (∃ t0, r1.title = pyReplace t0 sqS bsqS) ∧
    (∃ d0, r1.desc = pyReplace d0 sqS bsqS) ∧
    r1.tags ≠ [] ∧ (∀ t ∈ r1.tags, t ∈ valid_tags) := by
  unfold validateEvent at h
  cases hk : pyHasAllKeys ev ["date", "title", "desc", "tags"] with
  | error e => rw [hk] at h; cases h
  | ok b =>
    rw [hk] at h
    cases b with
    | false => simp at h
    | true =>
      simp only at h
      cases h1 : pyGetItem ev "tags" with
      | error e => rw [h1] at h; simp at h
      | ok tagsVal =>
        rw [h1] at h
        simp only at h
        cases h2 : pyIterate tagsVal with
        | error e => rw [h2] at h; simp at h
        | ok tagList =>
          rw [h2] at h
          simp only at h
          cases h3 : filterTags tagList with
          | error e => rw [h3] at h; simp at h
          | ok tags0 =>
            rw [h3] at h
            simp only at h
            cases h4 : pyGetItem ev "title" with
            | error e => rw [h4] at h; simp at h
            | ok titleVal =>
              rw [h4] at h
              simp only at h
              cases h5 : pyStrReplaceAttr titleVal sqS bsqS with
              | error e => rw [h5] at h; simp at h
              | ok title =>
                rw [h5] at h
                simp only at h
                cases h6 : pyGetItem ev "desc" with
                | error e => rw [h6] at h; simp at h
                | ok descVal =>
                  rw [h6] at h
                  simp only at h
                  cases h7 : pyStrReplaceAttr descVal sqS bsqS with
                  | error e => rw [h7] at h; simp at h
                  | ok desc =>
                    rw [h7] at h
                    simp only at h
                    cases h8 : pyGetItem ev "date" with
                    | error e => rw [h8] at h; simp at h
                    | ok dateVal =>
                      rw [h8] at h
                      simp only at h
                      injection h with h'
                      injection h' with h''
                      subst h''
                      have htitle : ∃ t0, title = pyReplace t0 sqS bsqS := by
                        unfold pyStrReplaceAttr at h5
                        cases titleVal with
                        | str s => exact ⟨s, (Except.ok.inj h5).symm⟩
                        | null => cases h5
                        | bool b => cases h5
                        | num n => cases h5
                        | arr xs => cases h5
                        | obj fs => cases h5
                      have hdesc : ∃ d0, desc = pyReplace d0 sqS bsqS := by
                        unfold pyStrReplaceAttr at h7
                        cases descVal with
                        | str s => exact ⟨s, (Except.ok.inj h7).symm⟩
                        | null => cases h7
                        | bool b => cases h7
                        | num n => cases h7
                        | arr xs => cases h7
                        | obj fs => cases h7
                      refine ⟨htitle, hdesc, ?_, ?_⟩
                      · by_cases h0 : tags0 = []
                        · simp [h0]
                        · simp [h0]
                      · intro t ht
                        by_cases h0 : tags0 = []
                        · simp only [h0, if_pos] at ht
                          simp at ht
                          rw [ht]
                          decide
                        · simp only [if_neg h0] at ht
                          exact filterTags_subset tagList tags0 h3 t ht

/-- Every record in the output of the validation loop comes from some
element of the input array via `validateEvent`. -/
lemma validateEvents_mem : ∀ {events : List JValue} {l : List EventRec} {r1 : EventRec},
    validateEvents events = .ok l → r1 ∈ l →
    ∃ ev ∈ events, validateEvent ev = .ok (some r1) := by
  intro events
  induction events with
  | nil =>
    intro l r1 h hm
    simp only [validateEvents] at h
    injection h with h'
    subst h'
    simp at hm
  | cons ev rest ih =>
    intro l r1 h hm
    simp only [validateEvents] at h
    cases hev : validateEvent ev with
    | error e => rw [hev] at h; simp at h
    | ok o =>
      rw [hev] at h
      cases o with
      | none =>
        simp only at h
        obtain ⟨ev2, hev2, hv⟩ := ih h hm
        exact ⟨ev2, List.mem_cons_of_mem _ hev2, hv⟩
      | some r2 =>
        simp only at h
        cases hrest : validateEvents rest with
        | error e => rw [hrest] at h; simp at h
        | ok others =>
          rw [hrest] at h
          simp only at h
          injection h with h'
          subst h'
          rcases List.mem_cons.mp hm with h1 | h1
          · subst h1
            exact ⟨ev, List.mem_cons_self _ _, hev⟩
          · obtain ⟨ev2, hev2, hv⟩ := ih hrest h1
            exact ⟨ev2, List.mem_cons_of_mem _ hev2, hv⟩

/-- C7: every record produced by the validation loop has a non-empty tag
list all of whose members belong to the fixed 12-tag vocabulary; when
filtering empties the tags, the single default tag "crisis" is what makes
the list non-empty. -/
theorem validated_tags_in_vocab_nonempty (events : List JValue) (l : List EventRec)
    (r1 : EventRec) (hv : validateEvents events = .ok l) (hm : r1 ∈ l) :
    r1.tags ≠ [] ∧ ∀ t ∈ r1.tags, t ∈ valid_tags := by
  obtain ⟨ev, -, hev⟩ := validateEvents_mem hv hm
  have hs := validateEvent_some hev
  exact ⟨hs.2.2.1, hs.2.2.2⟩

/-- Witness for C7: one unknown tag is discarded, the kept tag is in the
vocabulary and the tag list is non-empty. -/
theorem validated_tags_in_vocab_nonempty_witness :
    (⟨"d", "t", "s", ["polls"]⟩ : EventRec).tags ≠ [] ∧ "polls" ∈ valid_tags :=
  ⟨(validated_tags_in_vocab_nonempty
      [JValue.obj [("date", JValue.str "d"), ("title", JValue.str "t"),
        ("desc", JValue.str "s"), ("tags", JValue.arr [JValue.str "polls", JValue.str "zzz"])]]
      [⟨"d", "t", "s", ["polls"]⟩] ⟨"d", "t", "s", ["polls"]⟩ rfl (by decide)).1,
   (validated_tags_in_vocab_nonempty
      [JValue.obj [("date", JValue.str "d"), ("title", JValue.str "t"),
        ("desc", JValue.str "s"), ("tags", JValue.arr [JValue.str "polls", JValue.str "zzz"])]]
      [⟨"d", "t", "s", ["polls"]⟩] ⟨"d", "t", "s", ["polls"]⟩ rfl (by decide)).2
    "polls" (by decide)⟩

/-- C9: in every validated record, title and desc are the single-quote
escape of the corresponding model strings, so each single-quote character
they still contain is immediately preceded by a backslash; the injector
then places exactly these escaped strings between the quote delimiters of
its rendered literal block. -/
theorem validated_quotes_escaped (events : List JValue) (l : List EventRec)
    (r1 : EventRec) (hv : validateEvents events = .ok l) (hm : r1 ∈ l) :
    quoteEscaped r1.title.data ∧ quoteEscaped r1.desc.data ∧
    (∃ t0, r1.title = pyReplace t0 sqS bsqS) ∧
    (∃ d0, r1.desc = pyReplace d0 sqS bsqS) := by
  obtain ⟨ev, -, hev⟩ := validateEvents_mem hv hm
  obtain ⟨⟨t0, ht⟩, ⟨d0, hd⟩, -, -⟩ := validateEvent_some hev
  refine ⟨?_, ?_, ⟨t0, ht⟩, ⟨d0, hd⟩⟩
  · rw [ht]; exact pyReplace_escape_quotes t0
  · rw [hd]; exact pyReplace_escape_quotes d0

/-- Witness for C9: a title containing one single quote comes out with the
quote escaped. -/
theorem validated_quotes_escaped_witness :
    quoteEscaped (EventRec.title ⟨"d", String.mk ['a', bsChar, sqChar, 'b'], "s", ["crisis"]⟩).data ∧
    quoteEscaped (EventRec.desc ⟨"d", String.mk ['a', bsChar, sqChar, 'b'], "s", ["crisis"]⟩).data :=
  ⟨(validated_quotes_escaped
      [JValue.obj [("date", JValue.str "d"),
        ("title", JValue.str (String.mk ['a', sqChar, 'b'])),
        ("desc", JValue.str "s"), ("tags", JValue.arr [JValue.str "crisis"])]]
      [⟨"d", String.mk ['a', bsChar, sqChar, 'b'], "s", ["crisis"]⟩]
      ⟨"d", String.mk ['a', bsChar, sqChar, 'b'], "s", ["crisis"]⟩ rfl (by decide)).1,
   (validated_quotes_escaped
      [JValue.obj [("date", JValue.str "d"),
        ("title", JValue.str (String.mk ['a', sqChar, 'b'])),
        ("desc", JValue.str "s"), ("tags", JValue.arr [JValue.str "crisis"])]]
      [⟨"d", String.mk ['a', bsChar, sqChar, 'b'], "s", ["crisis"]⟩]
      ⟨"d", String.mk ['a', bsChar, sqChar, 'b'], "s", ["crisis"]⟩ rfl (by decide)).2.1⟩

/-- C4 (counterexample): with the credential present but the index file
unreadable, the `IOError` of the un-guarded `open` propagates out of
`main`, so failures other than the missing credential are not all benign:
the run neither completes normally nor exits through the credential
check. -/
theorem main_no_propagation_cex :
    main_model ⟨.error .ioError, some "k", 0, [], .ok "NONE", fun _ => none, .ok ()⟩ =
      .raised .ioError ∧
    (some "k" : Option String) ≠ none :=
  ⟨rfl, by simp⟩

/-- C4 (amended): provided the document read, the generation call, the
response processing and the document write do not themselves raise, no
exception escapes `main` and a non-zero exit happens exactly through
`sys.exit(1)` for the missing credential; feed failures and parse
failures only lead to normal completion.  Without those provisos the
corresponding exceptions propagate (see the counterexample). -/
theorem main_outcomes_characterized (env : Env) (html raw : String) (g : GenParse)
    (hr : env.indexRead = .ok html)
    (hc : env.callModel = .ok raw)
    (hg : parseModelResponse env.jsonParse raw = .ok g)
    (hw : env.indexWrite = .ok ()) :
    (∀ e, main_model env ≠ .raised e) ∧
    (∀ c, main_model env = .exited c → c = 1 ∧ env.apiKey = none) := by
  by_cases hi : (fetch_rss_items (env.now - HOURS_LOOKBACK * 3600) env.feeds).isEmpty
  · constructor
    · intro e
      simp [main_model, hr, hi]
    · intro c hc2
      simp [main_model, hr, hi] at hc2
  · cases hk : env.apiKey with
    | none =>
      constructor
      · intro e
        simp [main_model, hr, hi, generate_events, hk]
      · intro c hc2
        simp only [main_model, hr, hi, generate_events, hk] at hc2
        simp at hc2
        exact ⟨hc2.symm, rfl⟩
    | some k =>
      have hgen : generate_events env.apiKey env.callModel env.jsonParse =
          .ok g.records g.parseWarning := by
        simp [generate_events, hk, hc, hg]
      constructor
      · intro e
        cases hrecs : g.records with
        | nil => simp [main_model, hr, hi, hgen, hrecs]
        | cons r rest => simp [main_model, hr, hi, hgen, hrecs, hw]
      · intro c hc2
        cases hrecs : g.records with
        | nil => simp [main_model, hr, hi, hgen, hrecs] at hc2
        | cons r rest => simp [main_model, hr, hi, hgen, hrecs, hw] at hc2

/-- Witness for the amended C4: all inputs healthy, credential missing,
one retained news item — the run raises neither an I/O error nor a type
error. -/
theorem main_outcomes_characterized_witness :
    main_model ⟨.ok "doc", none, 0, [.ok [⟨some 0, none, "T", "S"⟩]],
      .ok "NONE", fun _ => none, .ok ()⟩ ≠ .raised PyErr.ioError ∧
    main_model ⟨.ok "doc", none, 0, [.ok [⟨some 0, none, "T", "S"⟩]],
      .ok "NONE", fun _ => none, .ok ()⟩ ≠ .raised PyErr.typeError :=
  ⟨(main_outcomes_characterized
      ⟨.ok "doc", none, 0, [.ok [⟨some 0, none, "T", "S"⟩]],
        .ok "NONE", fun _ => none, .ok ()⟩
      "doc" "NONE" ⟨[], false⟩ rfl rfl rfl rfl).1 PyErr.ioError,
   (main_outcomes_characterized
      ⟨.ok "doc", none, 0, [.ok [⟨some 0, none, "T", "S"⟩]],
        .ok "NONE", fun _ => none, .ok ()⟩
      "doc" "NONE" ⟨[], false⟩ rfl rfl rfl rfl).1 PyErr.typeError⟩
